import Mathlib

/-!
Shallow embedding of the Nexus AI front end (a browser UI over a remote
generative-media service).  The definitions below are translated from the
TypeScript source: the streaming message
reassembly and rollback (`src/components/Chatbot.tsx`), the media request
client (`editImage`, `generateVideo` in the service module), the persona
registry (`usePersonas`), the capped image history, and the failure
handling of the chat and image views.  The theorems settle the specified
testable properties against these definitions.
-/

namespace NexusAI

/-- One inline-data payload: base64 data plus its mime type, the
`inlineData` field of a `MessagePart` in `src/types.ts`. -/
structure InlineData where
  mimeType : String
  data : String
deriving DecidableEq

/-- A message part, `{ text?: string; inlineData?: ... }` from
`src/types.ts`; each field may be absent. -/
structure MessagePart where
  text : Option String := none
  inlineData : Option InlineData := none
deriving DecidableEq

/-- Message roles from `src/types.ts`. -/
inductive Role where
  | user
  | model
deriving DecidableEq

/-- A transcript message, `{ role, parts }` from `src/types.ts`. -/
structure Message where
  role : Role
  parts : List MessagePart
deriving DecidableEq

/-- One streamed chunk applied to the transcript: the `setMessages`
updater inside the streaming loop of `handleSend`
(`src/components/Chatbot.tsx` lines 241-258).  If the trailing message
has role `model`, it is replaced immutably by a copy whose single text
part is the previous text (the first part text, defaulting to the empty string) with the chunk
appended; otherwise the transcript is returned unchanged. -/
def applyChunk (msgs : List Message) (chunkText : String) : List Message :=
  match msgs.getLast? with
  | none => msgs
  | some lastMessage =>
    if lastMessage.role = Role.model then
      let existingText := (lastMessage.parts.head?.bind (fun p => p.text)).getD ""
      msgs.dropLast ++
        [{ lastMessage with parts := [{ text := some (existingText ++ chunkText) }] }]
    else
      msgs

/-- The initially-empty model message appended before the first chunk is
processed (`src/components/Chatbot.tsx` line 233). -/
def emptyModelMessage : Message :=
  { role := Role.model, parts := [{ text := some "" }] }

/-- The whole streaming phase of `handleSend`: append the empty model
message to the transcript, then process the chunks in order. -/
def streamChunks (msgs : List Message) (chunks : List String) : List Message :=
  chunks.foldl applyChunk (msgs ++ [emptyModelMessage])

/-- A model message holding a single text part. -/
def modelTextMessage (s : String) : Message :=
  { role := Role.model, parts := [{ text := some s }] }

/-- The rollback performed in the catch branch of `handleSend`
(`src/components/Chatbot.tsx` line 269): drop the trailing message. -/
def rollbackTranscript (msgs : List Message) : List Message :=
  msgs.dropLast

/-- The error message surfaced on chat failure
(`src/components/Chatbot.tsx` line 267): the remote-supplied message when
truthy, otherwise the fixed fallback text. -/
def chatFailureMessage : Option String → String
  | some m => if m = "" then "An error occurred while getting a response." else m
  | none => "An error occurred while getting a response."

theorem applyChunk_concat (a : List Message) (s c : String) :
    applyChunk (a ++ [modelTextMessage s]) c = a ++ [modelTextMessage (s ++ c)] := by
  simp [applyChunk, modelTextMessage]

theorem foldl_applyChunk_model (cs : List String) (a : List Message) (s : String) :
    cs.foldl applyChunk (a ++ [modelTextMessage s]) =
      a ++ [modelTextMessage (cs.foldl (· ++ ·) s)] := by
  induction cs generalizing s with
  | nil => rfl
  | cons c cs ih => simp [List.foldl_cons, applyChunk_concat, ih]

theorem applyChunk_length (ms : List Message) (c : String) :
    (applyChunk ms c).length = ms.length := by
  rcases h : ms.getLast? with _ | lm
  · simp [applyChunk, h]
  · have hne : ms ≠ [] := by
      intro he
      subst he
      simp at h
    have hlen : 1 ≤ ms.length := List.length_pos.mpr hne
    by_cases hr : lm.role = Role.model
    · simp only [applyChunk, h, hr, if_pos]
      rw [List.length_append, List.length_dropLast]
      simp
      omega
    · simp [applyChunk, h, hr]

theorem applyChunk_dropLast (ms : List Message) (c : String) :
    (applyChunk ms c).dropLast = ms.dropLast := by
  rcases h : ms.getLast? with _ | lm
  · simp [applyChunk, h]
  · by_cases hr : lm.role = Role.model
    · simp [applyChunk, h, hr, List.dropLast_concat]
    · simp [applyChunk, h, hr]

theorem foldl_applyChunk_length (cs : List String) (ms : List Message) :
    (cs.foldl applyChunk ms).length = ms.length := by
  induction cs generalizing ms with
  | nil => rfl
  | cons c cs ih => simp [List.foldl_cons, ih, applyChunk_length]

theorem foldl_applyChunk_dropLast (cs : List String) (ms : List Message) :
    (cs.foldl applyChunk ms).dropLast = ms.dropLast := by
  induction cs generalizing ms with
  | nil => rfl
  | cons c cs ih => simp [List.foldl_cons, ih, applyChunk_dropLast]

/-- C1: Streaming reassembly.  For every transcript and every ordered
chunk sequence, the session appends one initially-empty model message
before the first chunk is processed and each chunk is concatenated onto
that same trailing model message, so the result is the original
transcript with one trailing model message holding the concatenation of
all chunks; the transcript length is the original length plus one at
every step (stated for all chunk sequences, hence for every prefix); in
particular for chunks `["Hel", "lo, ", "world"]` the trailing model
message text is `"Hello, world"`. -/
theorem streaming_reassembly :
    (∀ (t : List Message) (cs : List String),
        streamChunks t cs = t ++ [modelTextMessage (cs.foldl (· ++ ·) "")]) ∧
    (∀ (t : List Message) (cs : List String),
        (streamChunks t cs).length = t.length + 1) ∧
    (∀ t : List Message,
        streamChunks t ["Hel", "lo, ", "world"] = t ++ [modelTextMessage "Hello, world"]) := by
  have hmain : ∀ (t : List Message) (cs : List String),
      streamChunks t cs = t ++ [modelTextMessage (cs.foldl (· ++ ·) "")] := by
    intro t cs
    have h := foldl_applyChunk_model cs t ""
    simpa [streamChunks, emptyModelMessage, modelTextMessage] using h
  refine ⟨hmain, ?_, ?_⟩
  · intro t cs
    simp [streamChunks, foldl_applyChunk_length]
  · intro t
    rw [hmain t ["Hel", "lo, ", "world"]]
    rfl

/-- C2: Rollback on mid-stream failure.  If the stream fails after
emitting at least one chunk, the catch branch removes the partially-built
trailing model message, leaving the transcript ending at the prior user
message, i.e. exactly the state as of just before the response began; and
the failure message is the remote-supplied one when available. -/
theorem rollback_on_failure (t : List Message) (u : Message) (cs : List String)
    (hcs : cs ≠ []) :
    rollbackTranscript (streamChunks (t ++ [u]) cs) = t ++ [u] ∧
    (∀ m : String, m ≠ "" → chatFailureMessage (some m) = m) := by
  constructor
  · unfold rollbackTranscript streamChunks
    rw [foldl_applyChunk_dropLast, List.dropLast_concat]
  · intro m hm
    simp [chatFailureMessage, hm]

/-- Witness for C2: rollback after the single chunk `"Hel"` restores the
two-message transcript, and a remote message `"boom"` is surfaced
verbatim. -/
theorem rollback_on_failure_witness :
    rollbackTranscript
        (streamChunks
          ([modelTextMessage "welcome"] ++ [{ role := Role.user, parts := [{ text := some "hi" }] }])
          ["Hel"]) =
      [modelTextMessage "welcome"] ++ [{ role := Role.user, parts := [{ text := some "hi" }] }] ∧
    chatFailureMessage (some "boom") = "boom" := by
  have h := rollback_on_failure [modelTextMessage "welcome"]
    { role := Role.user, parts := [{ text := some "hi" }] } ["Hel"] (by decide)
  exact ⟨h.1, h.2 "boom" (by decide)⟩

/-- Aspect ratio choices of the image views (the `AspectRatio` union of
`src/components/ImageGenerator.tsx`; field renamed to `aspect` here). -/
inductive Aspect where
  | square
  | landscape
  | portrait
deriving DecidableEq

/-- One persisted image-generation history record (`ImageHistoryItem` in
`src/components/Chatbot.tsx` image-generator section lines 477-482; the
`aspectRatio` field is called `aspect` here). -/
structure ImageHistoryItem where
  id : Nat
  prompt : String
  url : String
  aspect : Aspect
deriving DecidableEq

/-- The history update on a successful generation
(`src/components/Chatbot.tsx` line 521, identically for edits in
`src/unnamed/part_001` line 160): prepend the new record and keep the
first 20. -/
def pushHistory (history : List ImageHistoryItem) (item : ImageHistoryItem) :
    List ImageHistoryItem :=
  (item :: history).take 20

theorem take_append_take (a b : List ImageHistoryItem) (n : Nat) :
    (a ++ b.take n).take n = (a ++ b).take n := by
  rw [List.take_append_eq_append_take, List.take_append_eq_append_take, List.take_take]
  congr 1
  exact congrArg b.take (Nat.min_eq_left (Nat.sub_le n a.length))

theorem foldl_pushHistory (xs : List ImageHistoryItem) (h0 : List ImageHistoryItem)
    (hh0 : h0.length ≤ 20) :
    xs.foldl pushHistory h0 = (xs.reverse ++ h0).take 20 := by
  induction xs generalizing h0 with
  | nil => simp [List.take_of_length_le hh0]
  | cons x xs ih =>
    have hlen : (pushHistory h0 x).length ≤ 20 := by
      simp [pushHistory]
    rw [List.foldl_cons, ih (pushHistory h0 x) hlen]
    show (xs.reverse ++ ((x :: h0).take 20)).take 20 = _
    rw [take_append_take]
    simp

/-- C3: History cap.  Starting from any persisted history of length at
most 20, after any sequence of successful generations the history length
never exceeds 20 (stated for every sequence, hence at every intermediate
step), and once at least 20 generations have occurred the history is
exactly the 20 most recent records, newest first (the reverse of the
pushed sequence truncated to 20, so the oldest records are evicted
first). -/
theorem history_cap (h0 : List ImageHistoryItem) (xs : List ImageHistoryItem)
    (hh0 : h0.length ≤ 20) :
    (xs.foldl pushHistory h0).length ≤ 20 ∧
    (20 ≤ xs.length → xs.foldl pushHistory h0 = xs.reverse.take 20) := by
  rw [foldl_pushHistory xs h0 hh0]
  constructor
  · simp
  · intro hxs
    have : 20 ≤ xs.reverse.length := by simpa using hxs
    rw [List.take_append_of_le_length this]

/-- Witness for C3: pushing 21 records onto an empty history leaves at
most 20 and exactly the 20 most recent, newest first. -/
theorem history_cap_witness :
    ((List.range 21).map
        (fun i => ImageHistoryItem.mk i "p" "u" Aspect.square) |>.foldl pushHistory []).length ≤ 20 ∧
    ((List.range 21).map
        (fun i => ImageHistoryItem.mk i "p" "u" Aspect.square) |>.foldl pushHistory []) =
      ((List.range 21).map
        (fun i => ImageHistoryItem.mk i "p" "u" Aspect.square)).reverse.take 20 := by
  have h := history_cap []
    ((List.range 21).map (fun i => ImageHistoryItem.mk i "p" "u" Aspect.square))
    (by decide)
  exact ⟨h.1, h.2 (by simp)⟩

/-- A video operation handle as polled by `generateVideo`
(`src/unnamed/part_000` lines 132-151): only its `done` flag drives the
loop. -/
structure VideoOp where
  done : Bool
deriving DecidableEq

/-- The fixed delay between status polls in `generateVideo`
(`setTimeout(resolve, 10000)`), in milliseconds. -/
def pollIntervalMs : Nat := 10000

/-- The polling loop of `generateVideo` (`src/unnamed/part_000` lines
142-146): while the operation is not done, invoke `onProgress`, wait one
interval, and fetch the operation again.  The successive fetched handles
are supplied as a list; the result pairs the first `done` handle with the
number of `onProgress` invocations (one per poll), or is `none` if the
supplied handles are exhausted before completion. -/
def pollLoop : VideoOp → List VideoOp → Option (VideoOp × Nat)
  | op, polls =>
    if op.done then some (op, 0)
    else
      match polls with
      | [] => none
      | next :: rest =>
        match pollLoop next rest with
        | some (r, n) => some (r, n + 1)
        | none => none

/-- C4: Poll termination and progress count.  Whenever `pollLoop`
resolves with handle `r` after `n` progress callbacks, `r` is the handle
at position `n` of the observed sequence and reports `done = true`, every
handle observed before it reported `done = false` (so `onProgress` ran
exactly once per poll prior to the resolving check), the very first
handle being done implies zero callbacks, and the poll interval is the
fixed 10 seconds. -/
theorem poll_termination (o : VideoOp) (polls : List VideoOp) (r : VideoOp) (n : Nat)
    (h : pollLoop o polls = some (r, n)) :
    r.done = true ∧
    (o :: polls).get? n = some r ∧
    (∀ i, i < n → ∃ x, (o :: polls).get? i = some x ∧ x.done = false) ∧
    (o.done = true → n = 0 ∧ r = o) ∧
    pollIntervalMs = 10000 := by
  induction polls generalizing o n with
  | nil =>
    by_cases hd : o.done
    · rw [pollLoop, if_pos hd] at h
      obtain ⟨hr, hn⟩ : o = r ∧ 0 = n := by
        simpa using h
      subst hr
      subst hn
      exact ⟨hd, rfl, by omega, fun _ => ⟨rfl, rfl⟩, rfl⟩
    · rw [pollLoop, if_neg hd] at h
      exact absurd h (by simp)
  | cons next rest ih =>
    by_cases hd : o.done
    · rw [pollLoop, if_pos hd] at h
      obtain ⟨hr, hn⟩ : o = r ∧ 0 = n := by
        simpa using h
      subst hr
      subst hn
      exact ⟨hd, rfl, by omega, fun _ => ⟨rfl, rfl⟩, rfl⟩
    · rw [pollLoop, if_neg hd] at h
      rcases hrec : pollLoop next rest with _ | p
      · rw [hrec] at h
        exact absurd h (by simp)
      · rw [hrec] at h
        obtain ⟨hr, hn⟩ : p.1 = r ∧ p.2 + 1 = n := by
          simpa using h
        obtain ⟨v, m⟩ := p
        simp only at hr hn
        subst hr
        obtain ⟨h1, h2, h3, _, h5⟩ := ih next m hrec
        refine ⟨h1, ?_, ?_, ?_, h5⟩
        · rw [← hn]
          simpa using h2
        · intro i hi
          rcases i with _ | j
          · exact ⟨o, rfl, by simpa using hd⟩
          · have hj : j < m := by omega
            obtain ⟨x, hx1, hx2⟩ := h3 j hj
            exact ⟨x, by simpa using hx1, hx2⟩
        · intro ho
          exact absurd ho (by simpa using hd)

/-- Witness for C4: with a not-done initial handle and polls yielding one
more not-done handle then a done one, the loop resolves at position 2
after exactly 2 progress callbacks. -/
theorem poll_termination_witness :
    (VideoOp.mk true).done = true ∧
    (VideoOp.mk false :: [VideoOp.mk false, VideoOp.mk true]).get? 2 = some (VideoOp.mk true) ∧
    (∀ i, i < 2 → ∃ x,
        (VideoOp.mk false :: [VideoOp.mk false, VideoOp.mk true]).get? i = some x ∧
        x.done = false) ∧
    ((VideoOp.mk false).done = true → 2 = 0 ∧ VideoOp.mk true = VideoOp.mk false) ∧
    pollIntervalMs = 10000 :=
  poll_termination (VideoOp.mk false) [VideoOp.mk false, VideoOp.mk true]
    (VideoOp.mk true) 2 (by decide)

/-- Model of the JavaScript string `trim`: remove leading and trailing
whitespace characters.  Defined over the character list so that it is
executable by the kernel. -/
def jsTrim (s : String) : String :=
  ⟨((s.data.dropWhile Char.isWhitespace).reverse.dropWhile Char.isWhitespace).reverse⟩

/-- File kinds accepted by the chat attachment picker
(`src/components/Chatbot.tsx` line 87). -/
inductive FileKind where
  | image
  | audio
deriving DecidableEq

/-- The local state of the chat view touched by `handleSend` and
`transcribeAudio` (`src/components/Chatbot.tsx` lines 84-90). -/
structure ChatState where
  input : String
  attachedFile : Option InlineData
  fileType : Option FileKind
  loading : Bool
  isTranscribing : Bool
  error : Option String
  messages : List Message
deriving DecidableEq

/-- The user message built by `handleSend` (`src/components/Chatbot.tsx`
lines 206-221): the attachment part first when present, then the raw
input text when its trimmed form is non-empty. -/
def buildUserMessage (input : String) (att : Option InlineData) : Message :=
  { role := Role.user,
    parts :=
      (match att with
       | some a => [{ inlineData := some a }]
       | none => []) ++
      (if jsTrim input = "" then [] else [{ text := some input }]) }

/-- The synchronous opening phase of `handleSend`
(`src/components/Chatbot.tsx` lines 199-227): the guard returns the state
unchanged when there is nothing to send or a send is already in flight;
otherwise it marks loading, clears the error, appends the new user
message, and clears the composer input, attachment and file type. -/
def handleSendStart (s : ChatState) : ChatState :=
  if (jsTrim s.input = "" ∧ s.attachedFile = none) ∨ s.loading then s
  else
    { s with
        loading := true,
        error := none,
        messages := s.messages ++ [buildUserMessage s.input s.attachedFile],
        input := "",
        attachedFile := none,
        fileType := none }

/-- C5: Single-flight send.  `handleSend` is a silent no-op when a send
is already in flight or when both the text and the attachment are absent,
so no second user message is appended while one send is outstanding; when
it proceeds, exactly one user message is appended whose parts are ordered
attachment part first (if present) and text part second (if present). -/
theorem single_flight_send (s : ChatState) :
    (s.loading = true → handleSendStart s = s) ∧
    (jsTrim s.input = "" → s.attachedFile = none → handleSendStart s = s) ∧
    (s.loading = false → ¬(jsTrim s.input = "" ∧ s.attachedFile = none) →
      (handleSendStart s).messages =
        s.messages ++ [buildUserMessage s.input s.attachedFile] ∧
      (handleSendStart s).loading = true) ∧
    (∀ a : InlineData, s.attachedFile = some a → jsTrim s.input ≠ "" →
      (buildUserMessage s.input s.attachedFile).parts =
        [{ inlineData := some a }, { text := some s.input }]) ∧
    (s.attachedFile = none → jsTrim s.input ≠ "" →
      (buildUserMessage s.input s.attachedFile).parts = [{ text := some s.input }]) ∧
    (∀ a : InlineData, s.attachedFile = some a → jsTrim s.input = "" →
      (buildUserMessage s.input s.attachedFile).parts = [{ inlineData := some a }]) := by
  refine ⟨?_, ?_, ?_, ?_, ?_, ?_⟩
  · intro h
    simp [handleSendStart, h]
  · intro h1 h2
    simp [handleSendStart, h1, h2]
  · intro h1 h2
    rw [handleSendStart, if_neg (by simp [h1, h2])]
    exact ⟨rfl, rfl⟩
  · intro a ha ht
    simp [buildUserMessage, ha, ht]
  · intro ha ht
    simp [buildUserMessage, ha, ht]
  · intro a ha ht
    simp [buildUserMessage, ha, ht]

/-- Witness for C5 at concrete states: a send already in flight is a
no-op; an empty composer is a no-op; a ready state with text and an
attachment appends one user message with the attachment part first. -/
theorem single_flight_send_witness :
    (handleSendStart
        { input := "hi", attachedFile := none, fileType := none, loading := true,
          isTranscribing := false, error := none, messages := [] } =
      { input := "hi", attachedFile := none, fileType := none, loading := true,
        isTranscribing := false, error := none, messages := [] }) ∧
    (handleSendStart
        { input := " ", attachedFile := none, fileType := none, loading := false,
          isTranscribing := false, error := none, messages := [] } =
      { input := " ", attachedFile := none, fileType := none, loading := false,
        isTranscribing := false, error := none, messages := [] }) ∧
    ((handleSendStart
        { input := "hi", attachedFile := some { mimeType := "image/png", data := "QUFB" },
          fileType := some FileKind.image, loading := false,
          isTranscribing := false, error := none, messages := [] }).messages =
      [] ++ [buildUserMessage "hi" (some { mimeType := "image/png", data := "QUFB" })]) ∧
    ((buildUserMessage "hi" (some { mimeType := "image/png", data := "QUFB" })).parts =
      [{ inlineData := some { mimeType := "image/png", data := "QUFB" } },
       { text := some "hi" }]) := by
  refine ⟨?_, ?_, ?_, ?_⟩
  · exact (single_flight_send _).1 rfl
  · exact (single_flight_send
      { input := " ", attachedFile := none, fileType := none, loading := false,
        isTranscribing := false, error := none, messages := [] }).2.1 (by decide) rfl
  · exact ((single_flight_send _).2.2.1 rfl (by simp)).1
  · exact (single_flight_send
      { input := "hi", attachedFile := some { mimeType := "image/png", data := "QUFB" },
        fileType := some FileKind.image, loading := false,
        isTranscribing := false, error := none, messages := [] }).2.2.2.1
      { mimeType := "image/png", data := "QUFB" } rfl (by decide)

/-- A persona record from `src/types.ts`. -/
structure Persona where
  id : String
  name : String
  instruction : String
  welcomeMessage : String
deriving DecidableEq

/-- JavaScript-object-style key lookup on an insertion-ordered map. -/
def lookupKey : List (String × Persona) → String → Option Persona
  | [], _ => none
  | kv :: rest, k => if kv.1 = k then some kv.2 else lookupKey rest k

/-- The built-in personas of `src/types.ts` (`defaultPersonas`), as an
insertion-ordered key-value list. -/
def defaultPersonaList : List (String × Persona) :=
  [("Nexus",
    { id := "Nexus", name := "Nexus (Default)",
      instruction := "You are Nexus, an advanced AI assistant. Be helpful, clear, and concise. You can analyze images and text with great detail.",
      welcomeMessage := "Hello! I’m Nexus. How can I assist you today?" }),
   ("Professional",
    { id := "Professional", name := "Professional",
      instruction := "You are a professional assistant. Use formal language, be respectful, and provide structured responses.",
      welcomeMessage := "Good day. How may I be of service?" }),
   ("Friendly",
    { id := "Friendly", name := "Friendly",
      instruction := "You are a warm and friendly assistant. Be cheerful, conversational, and engaging.",
      welcomeMessage := "Hey there! 😊 What’s on your mind?" }),
   ("Witty",
    { id := "Witty", name := "Witty",
      instruction := "You are a witty and clever assistant. Use humor, wordplay, and clever phrasing.",
      welcomeMessage := "Well hello! Ready for some banter and brilliance?" })]

/-- The effective selected persona id after the fallback effect
(`src/components/Chatbot.tsx` lines 118-122): reset to `Professional`
whenever the selected id no longer resolves in the persona map. -/
def effectiveSelectedId (personas : List (String × Persona)) (selected : String) : String :=
  if (lookupKey personas selected).isSome then selected else "Professional"

/-- The persona configuration actually used
(`src/components/Chatbot.tsx` line 96): the selected entry when present,
otherwise the `Professional` entry. -/
def personaConfigOf (personas : List (String × Persona)) (selected : String) : Option Persona :=
  match lookupKey personas selected with
  | some p => some p
  | none => lookupKey personas "Professional"

/-- C8: Persona fallback invariant.  For every persona map and every
persisted selected id that is not a key of the map, the effective active
persona id is the fixed default `Professional`, and the persona
configuration used is the `Professional` entry. -/
theorem persona_fallback (personas : List (String × Persona)) (sel : String)
    (h : lookupKey personas sel = none) :
    effectiveSelectedId personas sel = "Professional" ∧
    personaConfigOf personas sel = lookupKey personas "Professional" := by
  simp [effectiveSelectedId, personaConfigOf, h]

/-- Witness for C8: a deleted or unknown id over the built-in map falls
back to the `Professional` persona. -/
theorem persona_fallback_witness :
    effectiveSelectedId defaultPersonaList "custom-123" = "Professional" ∧
    personaConfigOf defaultPersonaList "custom-123" =
      lookupKey defaultPersonaList "Professional" :=
  persona_fallback defaultPersonaList "custom-123" (by decide)

/-- The input merge performed on successful transcription
(`src/components/Chatbot.tsx` line 285): the previous input plus a space
plus the transcription when the previous input is truthy, otherwise the
transcription alone, then trimmed; `isTranscribing` is cleared in the
finally block; the transcript is untouched. -/
def transcribeSuccess (s : ChatState) (transcription : String) : ChatState :=
  { s with
      input := (if s.input = "" then transcription
                else s.input ++ " " ++ transcription) |> jsTrim,
      isTranscribing := false }

/-- C10: Transcription merge rule.  After a successful transcription, the
pending input is the previous input, a single space, and the returned
transcription (trimmed) when the previous input was non-empty, or the
trimmed transcription alone when it was empty; the transcript itself is
unchanged. -/
theorem transcription_merge (s : ChatState) (t : String) :
    (s.input ≠ "" → (transcribeSuccess s t).input = jsTrim (s.input ++ " " ++ t)) ∧
    (s.input = "" → (transcribeSuccess s t).input = jsTrim t) ∧
    (transcribeSuccess s t).messages = s.messages := by
  refine ⟨?_, ?_, rfl⟩
  · intro h
    simp [transcribeSuccess, h]
  · intro h
    simp [transcribeSuccess, h]

/-- Witness for C10: merging transcription `"world"` into pending input
`"hello"` yields `"hello world"`, and into an empty input yields
`"world"`; the transcript is unchanged in both cases. -/
theorem transcription_merge_witness :
    (transcribeSuccess
        { input := "hello", attachedFile := none, fileType := none, loading := false,
          isTranscribing := true, error := none, messages := [emptyModelMessage] }
        "world").input = jsTrim ("hello" ++ " " ++ "world") ∧
    (transcribeSuccess
        { input := "", attachedFile := none, fileType := none, loading := false,
          isTranscribing := true, error := none, messages := [] }
        "world").input = jsTrim "world" ∧
    (transcribeSuccess
        { input := "hello", attachedFile := none, fileType := none, loading := false,
          isTranscribing := true, error := none, messages := [emptyModelMessage] }
        "world").messages = [emptyModelMessage] := by
  refine ⟨?_, ?_, ?_⟩
  · exact (transcription_merge
      { input := "hello", attachedFile := none, fileType := none, loading := false,
        isTranscribing := true, error := none, messages := [emptyModelMessage] }
      "world").1 (by decide)
  · exact (transcription_merge
      { input := "", attachedFile := none, fileType := none, loading := false,
        isTranscribing := true, error := none, messages := [] }
      "world").2.1 rfl
  · exact (transcription_merge
      { input := "hello", attachedFile := none, fileType := none, loading := false,
        isTranscribing := true, error := none, messages := [emptyModelMessage] }
      "world").2.2

/-- The data URL built from an inline-data response part in `editImage`
(`src/unnamed/part_000` line 108). -/
def dataUrl (d : InlineData) : String :=
  "data:" ++ d.mimeType ++ ";base64," ++ d.data

/-- Appending one truthy text fragment onto the accumulated
accompanying text (`src/unnamed/part_000` line 110):
`text = (text ? text + newline : empty) + part.text`. -/
def appendEditText (acc : Option String) (t : String) : String :=
  (match acc with
   | some s => if s = "" then "" else s ++ "\n"
   | none => "") ++ t

/-- The text half of one scan step: a truthy text field is appended onto
the accumulated text, anything else leaves the accumulator unchanged. -/
def editTextStep (acc : Option String × Option String) (part : MessagePart) :
    Option String × Option String :=
  match part.text with
  | some t => if t = "" then acc else (acc.1, some (appendEditText acc.2 t))
  | none => acc

/-- One step of the response-part scan in `editImage`
(`src/unnamed/part_000` lines 104-112): an inline-data part is taken as
the image exactly when no image has been taken yet; every other part
falls through to the text branch. -/
def editScanStep (acc : Option String × Option String) (part : MessagePart) :
    Option String × Option String :=
  match part.inlineData, acc.1 with
  | some d, none => (some (dataUrl d), acc.2)
  | some _, some _ => editTextStep acc part
  | none, _ => editTextStep acc part

/-- The whole response-part scan of `editImage`, starting from no image
and no text. -/
def editScan (parts : List MessagePart) : Option String × Option String :=
  parts.foldl editScanStep (none, none)

/-- The result record of `editImage` (`EditedImageResponse` in
`src/unnamed/part_000` lines 51-54). -/
structure EditedImageResponse where
  imageUrl : Option String
  text : Option String
deriving DecidableEq

/-- The failure message when the response carried text but no image
(`src/unnamed/part_000` line 117); the text is quoted. -/
def textOnlyEditMessage (t : String) : String :=
  "The model responded with text but no image: \"" ++ t ++ "\""

/-- The failure message when the response carried neither image nor text
(`src/unnamed/part_000` line 119). -/
def noImageEditMessage : String :=
  "No image was returned from the editing service."

/-- The result classification of `editImage` (`src/unnamed/part_000`
lines 100-122) applied to the response parts of the first candidate; an
empty list models an absent or empty candidate set.  A truthy
accompanying text without an image raises the text-quoting failure,
no image and no truthy text raises the opaque failure. -/
def editImage (parts : List MessagePart) : Except String EditedImageResponse :=
  match editScan parts with
  | (some u, text) => Except.ok { imageUrl := some u, text := text }
  | (none, some t) =>
    if t = "" then Except.error noImageEditMessage
    else Except.error (textOnlyEditMessage t)
  | (none, none) => Except.error noImageEditMessage

/-- Specification-side newline join: `none` for no fragments, otherwise
the fragments concatenated in order separated by single newlines. -/
def newlineJoin : List String → Option String
  | [] => none
  | t :: ts => some (ts.foldl (fun acc u => acc ++ "\n" ++ u) t)

theorem editTextStep_fst (acc : Option String × Option String) (p : MessagePart) :
    (editTextStep acc p).1 = acc.1 := by
  rcases p with ⟨_ | t, d⟩
  · rfl
  · by_cases h : t = "" <;> simp [editTextStep, h]

theorem foldl_editScanStep_some (parts : List MessagePart) :
    ∀ (u : String) (o : Option String),
      (parts.foldl editScanStep (some u, o)).1 = some u := by
  induction parts with
  | nil => intro u o; rfl
  | cons p rest ih =>
    intro u o
    rw [List.foldl_cons]
    rcases hd : p.inlineData with _ | d
    · have : editScanStep (some u, o) p = editTextStep (some u, o) p := by
        simp [editScanStep, hd]
      rw [this]
      have hfst := editTextStep_fst (some u, o) p
      rcases hstep : editTextStep (some u, o) p with ⟨f, s⟩
      rw [hstep] at hfst
      simp only at hfst
      subst hfst
      exact ih u s
    · have : editScanStep (some u, o) p = editTextStep (some u, o) p := by
        simp [editScanStep, hd]
      rw [this]
      have hfst := editTextStep_fst (some u, o) p
      rcases hstep : editTextStep (some u, o) p with ⟨f, s⟩
      rw [hstep] at hfst
      simp only at hfst
      subst hfst
      exact ih u s

theorem foldl_editScanStep_fst_none (parts : List MessagePart) :
    ∀ o : Option String,
      (parts.foldl editScanStep (none, o)).1 =
        (parts.find? (fun p => p.inlineData.isSome)).bind
          (fun p => p.inlineData.map dataUrl) := by
  induction parts with
  | nil => intro o; rfl
  | cons p rest ih =>
    intro o
    rw [List.foldl_cons]
    rcases hd : p.inlineData with _ | d
    · have hstep : editScanStep (none, o) p = editTextStep (none, o) p := by
        simp [editScanStep, hd]
      rw [hstep]
      have hfst := editTextStep_fst (none, o) p
      rcases he : editTextStep (none, o) p with ⟨f, s⟩
      rw [he] at hfst
      simp only at hfst
      subst hfst
      rw [ih s]
      have hfind : (p :: rest).find? (fun q => q.inlineData.isSome) =
          rest.find? (fun q => q.inlineData.isSome) := by
        rw [List.find?_cons_of_neg]
        simp [hd]
      rw [hfind]
    · have hstep : editScanStep (none, o) p = (some (dataUrl d), o) := by
        simp [editScanStep, hd]
      rw [hstep, foldl_editScanStep_some]
      have hfind : (p :: rest).find? (fun q => q.inlineData.isSome) = some p := by
        rw [List.find?_cons_of_pos]
        simp [hd]
      rw [hfind]
      simp [hd]

/-- Pure tagged-union response parts: each part carries text or inline
data but not both, and a present text is non-empty (a falsy text is
skipped by the source anyway). -/
def PureParts (parts : List MessagePart) : Prop :=
  ∀ p ∈ parts, (p.text = none ∨ p.inlineData = none) ∧ p.text ≠ some ""

theorem append_newline_ne (s t : String) : s ++ "\n" ++ t ≠ "" := by
  intro h
  have hd := congrArg String.data h
  simp [String.data_append] at hd

theorem foldl_editScanStep_snd_some (parts : List MessagePart)
    (hp : PureParts parts) :
    ∀ (f : Option String) (s : String), s ≠ "" →
      (parts.foldl editScanStep (f, some s)).2 =
        some ((parts.filterMap (fun p => p.text)).foldl
          (fun acc u => acc ++ "\n" ++ u) s) := by
  induction parts with
  | nil => intro f s _; rfl
  | cons p rest ih =>
    have hp1 := hp p (List.mem_cons_self p rest)
    have hprest : PureParts rest := fun q hq => hp q (List.mem_cons_of_mem p hq)
    intro f s hs
    rw [List.foldl_cons]
    rcases ht : p.text with _ | t
    · have htail : rest.filterMap (fun q => q.text) =
          (p :: rest).filterMap (fun q => q.text) := by
        rw [List.filterMap_cons_none]
        exact ht
      rcases hd : p.inlineData with _ | d
      · have hstep : editScanStep (f, some s) p = (f, some s) := by
          simp [editScanStep, editTextStep, hd, ht]
        rw [hstep, ih hprest f s hs, htail]
      · rcases f with _ | u
        · have hstep : editScanStep (none, some s) p = (some (dataUrl d), some s) := by
            simp [editScanStep, hd]
          rw [hstep, ih hprest (some (dataUrl d)) s hs, htail]
        · have hstep : editScanStep (some u, some s) p = (some u, some s) := by
            simp [editScanStep, editTextStep, hd, ht]
          rw [hstep, ih hprest (some u) s hs, htail]
    · have hdt : p.inlineData = none := by
        rcases hp1.1 with h | h
        · rw [h] at ht; cases ht
        · exact h
      have htne : t ≠ "" := by
        intro he
        apply hp1.2
        rw [ht, he]
      have hstep : editScanStep (f, some s) p =
          (f, some (s ++ "\n" ++ t)) := by
        simp [editScanStep, editTextStep, hdt, ht, htne, appendEditText, hs]
      rw [hstep, ih hprest f (s ++ "\n" ++ t) (append_newline_ne s t)]
      rw [List.filterMap_cons_some ht, List.foldl_cons]

theorem foldl_editScanStep_snd_none (parts : List MessagePart)
    (hp : PureParts parts) :
    ∀ f : Option String,
      (parts.foldl editScanStep (f, none)).2 =
        newlineJoin (parts.filterMap (fun p => p.text)) := by
  induction parts with
  | nil => intro f; rfl
  | cons p rest ih =>
    have hp1 := hp p (List.mem_cons_self p rest)
    have hprest : PureParts rest := fun q hq => hp q (List.mem_cons_of_mem p hq)
    intro f
    rw [List.foldl_cons]
    rcases ht : p.text with _ | t
    · have htail : (p :: rest).filterMap (fun q => q.text) =
          rest.filterMap (fun q => q.text) := List.filterMap_cons_none ht
      rcases hd : p.inlineData with _ | d
      · have hstep : editScanStep (f, none) p = (f, none) := by
          simp [editScanStep, editTextStep, hd, ht]
        rw [hstep, ih hprest f, htail]
      · rcases f with _ | u
        · have hstep : editScanStep (none, (none : Option String)) p =
              (some (dataUrl d), none) := by
            simp [editScanStep, hd]
          rw [hstep, ih hprest (some (dataUrl d)), htail]
        · have hstep : editScanStep (some u, (none : Option String)) p =
              (some u, none) := by
            simp [editScanStep, editTextStep, hd, ht]
          rw [hstep, ih hprest (some u), htail]
    · have hdt : p.inlineData = none := by
        rcases hp1.1 with h | h
        · rw [h] at ht; cases ht
        · exact h
      have htne : t ≠ "" := by
        intro he
        apply hp1.2
        rw [ht, he]
      have hstep : editScanStep (f, none) p = (f, some t) := by
        simp [editScanStep, editTextStep, hdt, ht, htne, appendEditText]
      rw [hstep, foldl_editScanStep_snd_some rest hprest f t htne]
      rw [List.filterMap_cons_some ht]
      rfl

/-- C6: Edit tie-break and EditFailure cases.  For the example parts
`[text "note", image A, image B]` the result takes image `A` and text
`"note"`; in general the first image-bearing part is taken as the image;
for tagged-union parts all text fragments are concatenated in order
separated by newlines; a text-only response fails with the text quoted in
the message, and an empty response fails with the opaque message. -/
theorem edit_tie_break :
    (∀ a b : InlineData,
        editImage [{ text := some "note" }, { inlineData := some a },
            { inlineData := some b }] =
          Except.ok { imageUrl := some (dataUrl a), text := some "note" }) ∧
    (∀ parts : List MessagePart,
        (editScan parts).1 =
          (parts.find? (fun p => p.inlineData.isSome)).bind
            (fun p => p.inlineData.map dataUrl)) ∧
    (∀ parts : List MessagePart, PureParts parts →
        (editScan parts).2 = newlineJoin (parts.filterMap (fun p => p.text))) ∧
    (∀ (parts : List MessagePart) (t : String), t ≠ "" →
        editScan parts = (none, some t) →
        editImage parts = Except.error (textOnlyEditMessage t)) ∧
    (∀ parts : List MessagePart, editScan parts = (none, none) →
        editImage parts = Except.error noImageEditMessage) := by
  refine ⟨?_, ?_, ?_, ?_, ?_⟩
  · intro a b
    rfl
  · intro parts
    exact foldl_editScanStep_fst_none parts none
  · intro parts hp
    exact foldl_editScanStep_snd_none parts hp none
  · intro parts t ht hscan
    rw [editImage, hscan]
    simp [ht]
  · intro parts hscan
    rw [editImage, hscan]

/-- Witness for C6 at concrete inputs: the tie-break example with two
concrete images, the first-image rule and newline concatenation on a
concrete part list, and both failure classifications. -/
theorem edit_tie_break_witness :
    editImage [{ text := some "note" },
        { inlineData := some { mimeType := "image/png", data := "AAA" } },
        { inlineData := some { mimeType := "image/png", data := "BBB" } }] =
      Except.ok
        { imageUrl := some (dataUrl { mimeType := "image/png", data := "AAA" }),
          text := some "note" } ∧
    (editScan [{ text := some "x" }, { text := some "y" }]).2 =
      newlineJoin ["x", "y"] ∧
    editImage [{ text := some "cannot comply" }] =
      Except.error (textOnlyEditMessage "cannot comply") ∧
    editImage [] = Except.error noImageEditMessage := by
  obtain ⟨h1, _, h3, h4, h5⟩ := edit_tie_break
  refine ⟨h1 _ _, ?_, ?_, ?_⟩
  · exact h3 [{ text := some "x" }, { text := some "y" }]
      (by unfold PureParts; decide)
  · exact h4 [{ text := some "cannot comply" }] "cannot comply" (by decide) (by decide)
  · exact h5 [] rfl

/-- Truthiness of `defaultPersonas[id]`: whether the id is a built-in
persona key. -/
def isDefaultPersonaId (id : String) : Bool :=
  (lookupKey defaultPersonaList id).isSome

/-- `savePersona` from `src/unnamed/part_004` lines 21-31, in-memory
half: the object-spread upsert of the persona under its id, overwriting
any existing entry whether built-in or custom. -/
def savePersona (personas : List (String × Persona)) (p : Persona) :
    List (String × Persona) :=
  if (lookupKey personas p.id).isSome then
    personas.map (fun kv => if kv.1 = p.id then (p.id, p) else kv)
  else
    personas ++ [(p.id, p)]

/-- The custom subset written to storage by `savePersona` and
`deletePersona` (`src/unnamed/part_004` lines 25-27 and 39-41): every
entry whose key is a built-in id is filtered out. -/
def persistedCustoms (personas : List (String × Persona)) :
    List (String × Persona) :=
  personas.filter (fun kv => !isDefaultPersonaId kv.1)

/-- `deletePersona` from `src/unnamed/part_004` lines 33-45: a no-op on
built-in ids, otherwise the entry is removed. -/
def deletePersona (personas : List (String × Persona)) (id : String) :
    List (String × Persona) :=
  if isDefaultPersonaId id then personas
  else personas.filter (fun kv => kv.1 != id)

/-- The load-time merge `{ ...defaultPersonas, ...customPersonas }`
(`src/unnamed/part_004` line 14): keys of the first map in order with
values overridden by the second map on collision, then the remaining keys
of the second map. -/
def mergePersonaMaps (a b : List (String × Persona)) :
    List (String × Persona) :=
  a.map (fun kv =>
    match lookupKey b kv.1 with
    | some v => (kv.1, v)
    | none => kv) ++
  b.filter (fun kv => (lookupKey a kv.1).isNone)

/-- A persona colliding with the built-in `Professional` id but carrying
different content. -/
def alteredProfessional : Persona :=
  { id := "Professional", name := "Altered", instruction := "x",
    welcomeMessage := "y" }

theorem lookupKey_append (x y : List (String × Persona)) (k : String) :
    lookupKey (x ++ y) k =
      match lookupKey x k with
      | some v => some v
      | none => lookupKey y k := by
  induction x with
  | nil => rfl
  | cons kv rest ih =>
    by_cases h : kv.1 = k
    · simp [lookupKey, h]
    · simp only [List.cons_append, lookupKey, if_neg h]
      exact ih

theorem lookupKey_map_override (a b : List (String × Persona)) (k : String)
    (hb : lookupKey b k = none) :
    lookupKey (a.map (fun kv =>
      match lookupKey b kv.1 with
      | some v => (kv.1, v)
      | none => kv)) k = lookupKey a k := by
  induction a with
  | nil => rfl
  | cons kv rest ih =>
    rw [List.map_cons]
    rcases hob : lookupKey b kv.1 with _ | v
    · by_cases h : kv.1 = k
      · simp [lookupKey, h]
      · simp only [lookupKey, if_neg h]
        exact ih
    · have h : kv.1 ≠ k := by
        intro he
        rw [he] at hob
        rw [hob] at hb
        cases hb
      simp only [lookupKey, if_neg h]
      exact ih

theorem lookupKey_filter_none (b : List (String × Persona))
    (pred : String × Persona → Bool) (k : String)
    (hb : lookupKey b k = none) :
    lookupKey (b.filter pred) k = none := by
  induction b with
  | nil => rfl
  | cons kv rest ih =>
    have h : kv.1 ≠ k := by
      intro he
      rw [lookupKey, if_pos he] at hb
      cases hb
    have hrest : lookupKey rest k = none := by
      rw [lookupKey, if_neg h] at hb
      exact hb
    rw [List.filter_cons]
    by_cases hp : pred kv
    · rw [if_pos hp, lookupKey, if_neg h]
      exact ih hrest
    · rw [if_neg hp]
      exact ih hrest

theorem lookupKey_merge_of_none (a b : List (String × Persona)) (k : String)
    (hb : lookupKey b k = none) :
    lookupKey (mergePersonaMaps a b) k = lookupKey a k := by
  rw [mergePersonaMaps, lookupKey_append, lookupKey_map_override a b k hb]
  rcases ha : lookupKey a k with _ | v
  · exact lookupKey_filter_none b _ k hb
  · rfl

theorem lookupKey_none_of_no_key (m : List (String × Persona)) (k : String)
    (h : ∀ q ∈ m.map Prod.fst, q ≠ k) : lookupKey m k = none := by
  induction m with
  | nil => rfl
  | cons kv rest ih =>
    have h1 : kv.1 ≠ k := h kv.1 (by simp)
    rw [lookupKey, if_neg h1]
    exact ih (fun q hq => h q (by simp [hq]))

/-- C7, counterexample: saving a persona whose id collides with the
built-in `Professional` id is not rejected; it replaces the built-in
entry in the in-memory registry, so the built-in entry is changed. -/
theorem builtin_save_counterexample :
    lookupKey (savePersona defaultPersonaList alteredProfessional)
        "Professional" = some alteredProfessional ∧
    lookupKey defaultPersonaList "Professional" ≠ some alteredProfessional := by
  constructor
  · rfl
  · decide

/-- C7, amended: `delete` on a built-in id is a no-op; the persisted
custom set written after a save never contains a built-in key; and the
load-time merge of the built-in constants with any custom map free of
built-in keys resolves every built-in id to its built-in constant.  (A
save whose id collides with a built-in id is, however, not rejected: it
overwrites the in-memory entry, as the counterexample shows; the built-in
value is only restored from constants on the next load.) -/
theorem builtin_immutability_amended :
    (∀ (m : List (String × Persona)) (id : String),
        isDefaultPersonaId id = true → deletePersona m id = m) ∧
    (∀ (m : List (String × Persona)) (p : Persona) (k : String),
        k ∈ (persistedCustoms (savePersona m p)).map Prod.fst →
        isDefaultPersonaId k = false) ∧
    (∀ customs : List (String × Persona),
        (∀ k ∈ customs.map Prod.fst, isDefaultPersonaId k = false) →
        ∀ id, isDefaultPersonaId id = true →
          lookupKey (mergePersonaMaps defaultPersonaList customs) id =
            lookupKey defaultPersonaList id) := by
  refine ⟨?_, ?_, ?_⟩
  · intro m id h
    rw [deletePersona, if_pos h]
  · intro m p k hk
    simp only [persistedCustoms, List.mem_map, List.mem_filter] at hk
    obtain ⟨kv, ⟨_, hkv⟩, rfl⟩ := hk
    simpa using hkv
  · intro customs hc id hid
    apply lookupKey_merge_of_none
    apply lookupKey_none_of_no_key
    intro q hq he
    rw [he] at hq
    have := hc id hq
    rw [this] at hid
    cases hid

/-- A concrete custom persona used in witnesses. -/
def customOnePersona : Persona :=
  { id := "custom-1", name := "c", instruction := "i", welcomeMessage := "w" }

/-- Witness for the amended C7 statement at concrete inputs: deleting the
built-in `Nexus` id leaves the registry unchanged; after saving a custom
persona the persisted key `custom-1` is not a built-in id; and merging
the built-ins with a custom-only map resolves `Nexus` to its constant. -/
theorem builtin_immutability_amended_witness :
    deletePersona defaultPersonaList "Nexus" = defaultPersonaList ∧
    isDefaultPersonaId "custom-1" = false ∧
    lookupKey
        (mergePersonaMaps defaultPersonaList [("custom-1", customOnePersona)])
        "Nexus" =
      lookupKey defaultPersonaList "Nexus" := by
  obtain ⟨h1, h2, h3⟩ := builtin_immutability_amended
  refine ⟨h1 defaultPersonaList "Nexus" rfl, ?_, ?_⟩
  · exact h2 defaultPersonaList customOnePersona "custom-1" (by decide)
  · exact h3 [("custom-1", customOnePersona)] (by decide) "Nexus" rfl

/-- The local state of the image generator view
(`src/components/Chatbot.tsx` image-generator section lines 485-490). -/
structure ImageGenState where
  prompt : String
  aspect : Aspect
  loading : Bool
  error : Option String
  imageUrl : Option String
  history : List ImageHistoryItem
deriving DecidableEq

/-- The opening phase of the `handleGenerate` of the image generator
(`src/components/Chatbot.tsx` lines 503-510): an empty prompt only shows
an error; otherwise mark loading and clear the error and previous
image. -/
def handleGenerateStart (s : ImageGenState) : ImageGenState :=
  if s.prompt = "" then { s with error := some "Please enter a prompt." }
  else { s with loading := true, error := none, imageUrl := none }

/-- The failure path of `handleGenerate`
(`src/components/Chatbot.tsx` lines 525-529): show the error banner and
stop loading; nothing else is touched. -/
def handleGenerateFailure (s : ImageGenState) (msg : String) : ImageGenState :=
  { s with error := some msg, loading := false }

/-- The failure path of the chat `handleSend`
(`src/components/Chatbot.tsx` lines 266-272): surface the failure
message, roll back the trailing transcript message, stop loading. -/
def handleSendFailure (s : ChatState) (remoteMsg : Option String) : ChatState :=
  { s with
      error := some (chatFailureMessage remoteMsg),
      messages := rollbackTranscript s.messages,
      loading := false }

/-- The streaming phase of `handleSend` lifted to the chat state. -/
def handleSendStream (s : ChatState) (chunks : List String) : ChatState :=
  { s with messages := streamChunks s.messages chunks }

/-- The chat state at the moment a send is triggered, with pending text
and an attached image. -/
def chatTriggerState : ChatState :=
  { input := "hi",
    attachedFile := some { mimeType := "image/png", data := "QUFB" },
    fileType := some FileKind.image, loading := false, isTranscribing := false,
    error := none, messages := [modelTextMessage "welcome"] }

/-- C9, counterexample: a chat send clears the pending input and the
attached file when it starts, so after a mid-stream failure they do not
equal the values they had when the operation was triggered — the user
must re-enter them. -/
theorem failure_preserves_input_counterexample :
    (handleSendFailure (handleSendStream (handleSendStart chatTriggerState)
        ["Hel"]) none).input ≠ chatTriggerState.input ∧
    (handleSendFailure (handleSendStream (handleSendStart chatTriggerState)
        ["Hel"]) none).attachedFile ≠ chatTriggerState.attachedFile := by
  decide

/-- C9, amended: every failure handler only sets the inline error banner
and stops loading.  An image-generation failure leaves the prompt and the
history exactly as they were when the generation was triggered; the chat
failure handler itself leaves the pending input and the attachment
unchanged (it is the start of the send, not the failure, that clears
them, as the counterexample shows). -/
theorem failure_frame_amended :
    (∀ (s : ImageGenState) (m : String),
        (handleGenerateFailure (handleGenerateStart s) m).prompt = s.prompt ∧
        (handleGenerateFailure (handleGenerateStart s) m).history = s.history ∧
        (handleGenerateFailure (handleGenerateStart s) m).error = some m) ∧
    (∀ (s : ChatState) (r : Option String),
        (handleSendFailure s r).input = s.input ∧
        (handleSendFailure s r).attachedFile = s.attachedFile ∧
        (handleSendFailure s r).error = some (chatFailureMessage r)) := by
  constructor
  · intro s m
    by_cases h : s.prompt = ""
    · simp [handleGenerateFailure, handleGenerateStart, h]
    · simp [handleGenerateFailure, handleGenerateStart, h]
  · intro s r
    exact ⟨rfl, rfl, rfl⟩

end NexusAI
